import Mathlib

/-!
# Verification of the query-synthesis and dynamic-capability engine

Shallow embedding of the core of the `mcp_dynamic_lql` repository:

* the rule-based intent translator (`src/generators/lql-generator.ts`,
  class `LQLGenerator`),
* the dynamic capability registry (`src/tools/dynamic-registry.ts`,
  class `DynamicToolRegistry`),
* the data-source catalog (`DataSourceExplorer`) and
* the field resolver (`QueryBuilder.mapFilterToField`).

Conventions of the embedding:

* JavaScript strings are Lean `String`s; the code only ever manipulates
  ASCII text, so `toLowerCase`/`toUpperCase` are modelled by ASCII
  case-mapping.
* Timestamps (`Date`, ISO-8601 strings) are modelled as `Int`
  milliseconds since the epoch; `toISOString` is an injective monotone
  encoding, so comparisons on the Int model agree with comparisons on
  the encoded strings.
* JavaScript numbers are IEEE-754 binary64 doubles; every double is an
  exact rational, and the confidence arithmetic is embedded exactly: the
  literals `0.5`, `0.2`, `0.1` denote their binary64 values and each
  `+=` is a correctly rounded (round-to-nearest, ties-to-even) addition.
  All sums involved lie in `[1/2, 1)`, where the representable doubles
  are precisely the integer multiples of `2 ^ (-53)`, so the rounding is
  implemented on integers in units of `2 ^ (-55)`.
* JavaScript objects used as ordered string-keyed maps (`Record`,
  `Map`) are modelled as association lists in insertion order;
  assignment to an existing key replaces the value in place, assignment
  to a fresh key appends (the JS insertion-order semantics).
* The regular-expression tests of the translator only ever feed a
  boolean "did it match" decision (the match array is ignored by every
  pattern generator), so they are embedded as existence-of-occurrence
  tests; `.` does not match a newline, exactly as in JavaScript.
* Effectful collaborators (the Lacework CLI) are modelled by passing
  their outcome (`Except`/lists of rows) as an explicit argument.
-/

set_option maxRecDepth 100000

/-! ## ASCII string utilities (JS `toLowerCase`, `toUpperCase`, `includes`, …) -/

/-- ASCII lower-casing of one character (JS `toLowerCase`, ASCII fragment). -/
def lcChar (c : Char) : Char :=
  if 'A' ≤ c ∧ c ≤ 'Z' then Char.ofNat (c.toNat + 32) else c

/-- ASCII upper-casing of one character (JS `toUpperCase`, ASCII fragment). -/
def ucChar (c : Char) : Char :=
  if 'a' ≤ c ∧ c ≤ 'z' then Char.ofNat (c.toNat - 32) else c

/-- JS `s.toLowerCase()` (ASCII fragment). -/
def lowerStr (s : String) : String := ⟨s.data.map lcChar⟩

/-- JS `s.toUpperCase()` (ASCII fragment). -/
def upperStr (s : String) : String := ⟨s.data.map ucChar⟩

/-- Does `w` occur as a contiguous block of `cs`?  (`[] `occurs in
anything, matching JS `includes('')`.) -/
def listInfix (w cs : List Char) : Bool :=
  (List.range (cs.length + 1)).any (fun i => w.isPrefixOf (cs.drop i))

/-- JS `hay.includes(needle)` (substring test; `isSubstr "" h = true`,
matching the JS behaviour of `includes('')`). -/
def isSubstr (needle hay : String) : Bool := listInfix needle.data hay.data

/-- JS `s.startsWith(p)`. -/
def strStartsWith (p s : String) : Bool := p.data.isPrefixOf s.data

/-- The whitespace characters relevant to this code base (JS `\s`,
restricted to the ASCII whitespace that can actually occur here). -/
def isWs (c : Char) : Bool := c = ' ' ∨ c = '\t' ∨ c = '\n' ∨ c = '\r'

/-- JS `\w`: `[A-Za-z0-9_]`. -/
def isWordChar (c : Char) : Bool :=
  ('a' ≤ c ∧ c ≤ 'z') ∨ ('A' ≤ c ∧ c ≤ 'Z') ∨ ('0' ≤ c ∧ c ≤ '9') ∨ c = '_'

/-- JS `s.replace(/[^\w\s]/g, '')`: drop every character that is neither a
word character nor whitespace. -/
def stripNonWord (s : String) : String :=
  ⟨s.data.filter (fun c => isWordChar c || isWs c)⟩

/-- Helper for `splitWs`: accumulate the current word (reversed). -/
def splitWsAux : List Char → List Char → List String
  | [], acc => if acc.isEmpty then [] else [⟨acc.reverse⟩]
  | c :: cs, acc =>
    if isWs c then
      if acc.isEmpty then splitWsAux cs []
      else (⟨acc.reverse⟩ : String) :: splitWsAux cs []
    else splitWsAux cs (c :: acc)

/-- JS `s.split(/\s+/)` with empty tokens dropped.  (JS yields one empty
leading token when the string starts with whitespace; every caller in the
source immediately filters words by `length > 2`, which removes that empty
token, so dropping it here is observationally equal.) -/
def splitWs (s : String) : List String := splitWsAux s.data []

/-- JS `s.trim()` (ASCII whitespace). -/
def trimStr (s : String) : String :=
  ⟨((s.data.dropWhile (fun c => isWs c)).reverse.dropWhile (fun c => isWs c)).reverse⟩

/-- JS `s.split(sep)` for a single-character separator (keeps empty pieces,
as JS `String.split` does). -/
def splitOnChar (sep : Char) : List Char → List (List Char)
  | [] => [[]]
  | c :: cs =>
    let r := splitOnChar sep cs
    if c = sep then [] :: r
    else
      match r with
      | [] => [[c]]
      | h :: t => (c :: h) :: t

/-- `String.intercalate` on plain strings (JS `Array.prototype.join`). -/
def joinWith (sep : String) : List String → String
  | [] => ""
  | [x] => x
  | x :: xs => x ++ sep ++ joinWith sep xs

/-- Insertion-ordered JS object/`Map` assignment: replace in place when the
key is present, append otherwise. -/
def objSet {α : Type} (m : List (String × α)) (k : String) (v : α) :
    List (String × α) :=
  if m.any (fun p => p.1 = k) then
    m.map (fun p => if p.1 = k then (k, v) else p)
  else m ++ [(k, v)]

/-- Lookup in an insertion-ordered JS object/`Map` (first binding wins,
as with `Map.get` on a map whose keys are unique). -/
def objGet {α : Type} (m : List (String × α)) (k : String) : Option α :=
  (m.find? (fun p => p.1 = k)).map (fun p => p.2)

/-! ## Intent Translator: data model (`lql-generator.ts`) -/

/-- A time window; `start`/`end` are Int epoch-milliseconds standing for the
ISO-8601 instants of `LQLQueryResult.timeRange`. -/
structure TimeWindow where
  start : Int
  stop : Int
deriving DecidableEq, Repr

/-- A parameter value: the translator stores strings everywhere except the
`anomaly: true` flag of the lateral-movement pattern. -/
inductive PVal where
  | s : String → PVal
  | b : Bool → PVal
deriving DecidableEq, Repr

/-- `LQLQueryResult` of `lql-generator.ts`.  `parameters` is the ordered
key→value map, `confidence` the JS number idealised to `ℚ`. -/
structure LQLQueryResult where
  query : String
  category : String
  suggestedName : String
  parameters : List (String × PVal)
  timeRange : Option TimeWindow
  confidence : ℚ
deriving DecidableEq

/-- `DataSourceMapping` of `lql-generator.ts`. -/
structure DataSourceMapping where
  keywords : List String
  lqlSource : String
  commonFields : List String
  description : String
deriving DecidableEq, Repr

/-- The static data-source table built by `initializeDataSources`, as an
insertion-ordered map (the `Map` iteration order of `identifyDataSource`). -/
def dataSources : List (String × DataSourceMapping) :=
  [ ("aws-ec2",
     { keywords := ["ec2", "instance", "instances", "virtual machine", "vm"]
       lqlSource := "CloudTrailRawEvents"
       commonFields := ["EVENT_NAME", "AWS_REGION", "SOURCE_IP_ADDRESS", "USER_NAME"]
       description := "AWS EC2 instances and events" }),
    ("aws-s3",
     { keywords := ["s3", "bucket", "storage", "object storage"]
       lqlSource := "CloudTrailRawEvents"
       commonFields := ["EVENT_NAME", "AWS_REGION", "BUCKET_NAME", "OBJECT_KEY"]
       description := "AWS S3 buckets and objects" }),
    ("aws-compliance",
     { keywords := ["compliance", "cis", "benchmark", "policy", "violation"]
       lqlSource := "ComplianceEvaluationDetails"
       commonFields := ["EVAL_TYPE", "STATUS", "SEVERITY", "RESOURCE_ID"]
       description := "AWS compliance evaluations" }),
    ("containers",
     { keywords := ["container", "docker", "image", "vulnerability", "cve"]
       lqlSource := "ContainerVulnDetails"
       commonFields := ["IMAGE_DIGEST", "SEVERITY", "CVE_ID", "NAMESPACE"]
       description := "Container vulnerabilities and images" }),
    ("kubernetes",
     { keywords := ["kubernetes", "k8s", "pod", "deployment", "service"]
       lqlSource := "KubernetesActivity"
       commonFields := ["CLUSTER_NAME", "NAMESPACE", "RESOURCE_TYPE", "ACTION"]
       description := "Kubernetes cluster activities" }),
    ("network",
     { keywords := ["network", "connection", "traffic", "lateral movement", "communication"]
       lqlSource := "NetworkActivity"
       commonFields := ["SOURCE_IP", "DEST_IP", "PORT", "PROTOCOL"]
       description := "Network communications and activities" }),
    ("users",
     { keywords := ["user", "login", "authentication", "access", "identity"]
       lqlSource := "UserActivity"
       commonFields := ["USER_NAME", "SOURCE_IP", "ACTION", "STATUS"]
       description := "User activities and authentication events" }) ]

/-- `identifyDataSource`: scan the table in insertion order; the first
mapping one of whose keywords occurs in the (already lower-cased) query
wins. -/
def identifyDataSource (query : String) : Option DataSourceMapping :=
  dataSources.findSome? (fun p =>
    if p.2.keywords.any (fun kw => isSubstr kw query) then some p.2 else none)

/-! ### The six query-pattern regular expressions

Each pattern of `initializeQueryPatterns` is of the shape
`A.*B.*C` where `A`, `B`, `C` are alternations of lower-case literals
(plus one `lateral.movement` single-any-character pattern), matched with
the `/i` flag.  The generators ignore the match array, so only the boolean
match result matters; `P.test(s)` for such a pattern holds iff occurrences
of the groups can be chosen left to right with the gaps between them free
of newlines (JS `.` does not match `\n`; the text before the first group
is unconstrained because it is not consumed by the unanchored match). -/

/-- Does alternative `w` occur at position `i` of `cs`? -/
def occursAt (w : List Char) (cs : List Char) (i : Nat) : Bool :=
  w.isPrefixOf (cs.drop i)

/-- Match the remaining groups of an `A.*B.*…` pattern against `cs`:
choose a position `i` whose preceding gap has no newline, an alternative
of the first group occurring there, and recurse after it. -/
def matchSeqGap : List (List String) → List Char → Bool
  | [], _ => true
  | g :: gs, cs =>
    (List.range (cs.length + 1)).any (fun i =>
      !((cs.take i).contains '\n') &&
        g.any (fun alt => occursAt alt.data cs i && matchSeqGap gs (cs.drop (i + alt.length))))

/-- `P.test(s)` for an unanchored `A.*B.*…` pattern: the first group may
occur anywhere (the unconsumed prefix is unconstrained); later gaps must be
newline-free. -/
def regexSeqTest (g1 : List String) (rest : List (List String)) (cs : List Char) : Bool :=
  (List.range (cs.length + 1)).any (fun i =>
    g1.any (fun alt => occursAt alt.data cs i && matchSeqGap rest (cs.drop (i + alt.length))))

/-- `/(?:show|get|find|list).*(?:high|critical).*(?:risk|score)/i` -/
def pat1Test (cs : List Char) : Bool :=
  regexSeqTest ["show", "get", "find", "list"] [["high", "critical"], ["risk", "score"]] cs

/-- `/(?:compliance|cis|benchmark).*(?:fail|violation|issue)/i` -/
def pat2Test (cs : List Char) : Bool :=
  regexSeqTest ["compliance", "cis", "benchmark"] [["fail", "violation", "issue"]] cs

/-- `/(?:vulnerabilit|cve|security).*(?:critical|high)/i` -/
def pat3Test (cs : List Char) : Bool :=
  regexSeqTest ["vulnerabilit", "cve", "security"] [["critical", "high"]] cs

/-- `/aws.*(?:ec2|instance).*(?:unencrypt|public|expose)/i` -/
def pat4Test (cs : List Char) : Bool :=
  regexSeqTest ["aws"] [["ec2", "instance"], ["unencrypt", "public", "expose"]] cs

/-- `/container.*(?:vulnerabilit|cve|insecure)/i` -/
def pat5Test (cs : List Char) : Bool :=
  regexSeqTest ["container"] [["vulnerabilit", "cve", "insecure"]] cs

/-- `/lateral.movement|suspicious.*network|unusual.*connection/i`.
`lateral.movement` is "lateral", one arbitrary non-newline character,
then "movement". -/
def pat6Test (cs : List Char) : Bool :=
  ((List.range (cs.length + 1)).any (fun i =>
      occursAt "lateral".data cs i &&
      (match cs.drop (i + 7) with
       | c :: _ => c ≠ '\n'
       | [] => false) &&
      occursAt "movement".data cs (i + 8)))
  || regexSeqTest ["suspicious"] [["network"]] cs
  || regexSeqTest ["unusual"] [["connection"]] cs

/-- The outcome a query-pattern generator supplies (`category`, baseline
`parameters`, `suggestedName`). -/
structure PatternOutcome where
  category : String
  parameters : List (String × PVal)
  suggestedName : String
deriving DecidableEq, Repr

/-- `matchQueryPattern`: evaluate the ordered pattern list against the
text (the `/i` flag is embedded by lower-casing); first match wins. -/
def matchQueryPattern (text : String) : Option PatternOutcome :=
  let cs := (lowerStr text).data
  if pat1Test cs then
    some { category := "risk-assessment"
           parameters := [("risk_threshold", PVal.s "high"), ("severity", PVal.s "high")]
           suggestedName := "high-risk-assets" }
  else if pat2Test cs then
    some { category := "compliance"
           parameters := [("status", PVal.s "fail")]
           suggestedName := "compliance-violations" }
  else if pat3Test cs then
    some { category := "vulnerabilities"
           parameters := [("severity", PVal.s "critical,high")]
           suggestedName := "critical-vulnerabilities" }
  else if pat4Test cs then
    some { category := "aws-security"
           parameters := [("cloud_provider", PVal.s "aws"), ("resource_type", PVal.s "ec2")]
           suggestedName := "aws-insecure-ec2" }
  else if pat5Test cs then
    some { category := "container-security"
           parameters := [("resource_type", PVal.s "container")]
           suggestedName := "container-vulnerabilities" }
  else if pat6Test cs then
    some { category := "threat-detection"
           parameters := [("activity_type", PVal.s "network"), ("anomaly", PVal.b true)]
           suggestedName := "lateral-movement-detection" }
  else none

/-- `extractFilters` (input is the lower-cased query).  The JS function
assigns object keys with independent `if`s; a later assignment to the same
key overwrites the value but keeps the key's original insertion slot.
Each key below therefore appears at its first-assignment position, with the
if-chains ordered so that the *last* JS assignment wins. -/
def extractFilters (q : String) : List (String × String) :=
  (if isSubstr "high risk" q || isSubstr "high score" q then
     [("risk_score", ">= 7")] else []) ++
  (if isSubstr "high" q && (isSubstr "severity" q || isSubstr "priority" q) then
     [("severity", "high")]
   else if isSubstr "critical" q then [("severity", "critical")]
   else []) ++
  (if isSubstr "azure" q then [("cloud_provider", "azure")]
   else if isSubstr "gcp" q || isSubstr "google cloud" q then [("cloud_provider", "gcp")]
   else if isSubstr "aws" q then [("cloud_provider", "aws")]
   else []) ++
  (if isSubstr "container" q then [("resource_type", "container")]
   else if isSubstr "s3" q || isSubstr "bucket" q then [("resource_type", "s3")]
   else if isSubstr "ec2" q then [("resource_type", "ec2")]
   else []) ++
  (if isSubstr "active" q || isSubstr "running" q then [("status", "active")]
   else if isSubstr "fail" q || isSubstr "violation" q then [("status", "fail")]
   else []) ++
  (if isSubstr "unencrypt" q then [("encrypted", "false")] else []) ++
  (if isSubstr "public" q || isSubstr "expose" q then [("public_access", "true")] else [])

/-- The ordered relative-time phrase table of `extractTimeRange`.  The
optional plural `s` of `hours?`/`days?` does not affect a substring test,
so each phrase keeps only its mandatory part. -/
def timePhrases : List (List String × Int) :=
  [ (["last hour", "past hour"], 1),
    (["last 24 hour", "past 24 hour", "today"], 24),
    (["last week", "past week"], 24 * 7),
    (["last month", "past month"], 24 * 30),
    (["last 7 day", "past 7 day"], 24 * 7),
    (["last 30 day", "past 30 day"], 24 * 30) ]

/-- `extractTimeRange` (the `now` of `new Date()` is an explicit Int
epoch-milliseconds argument): first matching phrase wins; otherwise default
to the trailing-24-hour window anchored at `now`. -/
def extractTimeRange (now : Int) (q : String) : Option TimeWindow :=
  match timePhrases.findSome? (fun p =>
      if p.1.any (fun w => isSubstr w q) then some p.2 else none) with
  | some hours => some { start := now - hours * 60 * 60 * 1000, stop := now }
  | none => some { start := now - 24 * 60 * 60 * 1000, stop := now }

/-- The static `fieldMappings` table of `LQLGenerator.mapFieldName`. -/
def fieldMappings : List (String × List (String × String)) :=
  [ ("CloudTrailRawEvents",
     [("cloud_provider", "AWS_REGION"), ("resource_type", "EVENT_NAME"),
      ("severity", "ERROR_CODE"), ("risk_score", "RISK_SCORE"),
      ("status", "STATUS"), ("user_name", "USER_NAME")]),
    ("ComplianceEvaluationDetails",
     [("severity", "SEVERITY"), ("status", "STATUS"),
      ("resource_type", "EVAL_TYPE"), ("risk_score", "RISK_SCORE")]),
    ("ContainerVulnDetails",
     [("severity", "SEVERITY"), ("cve_id", "CVE_ID"),
      ("risk_score", "CVE_SCORE"), ("image_digest", "IMAGE_DIGEST")]),
    ("VulnDetails",
     [("severity", "SEVERITY"), ("cve_id", "CVE_ID"), ("risk_score", "CVE_SCORE")]) ]

/-- `LQLGenerator.mapFieldName`: per-source static table, else the
upper-cased verbatim filter key. -/
def mapFieldName (filterKey dataSource : String) : String :=
  match objGet fieldMappings dataSource with
  | some m =>
    match objGet m filterKey with
    | some f => f
    | none => upperStr filterKey
  | none => upperStr filterKey

/-- `inferDataSourceFromQuery` (the final default-inference ladder of
`buildLQLQuery` when no static mapping matched). -/
def inferDataSourceFromQuery (query : String) : String :=
  let lowerQuery := lowerStr query
  if isSubstr "compliance" lowerQuery || isSubstr "cis" lowerQuery
      || isSubstr "benchmark" lowerQuery then "ComplianceEvaluationDetails"
  else if isSubstr "vulnerabilit" lowerQuery || isSubstr "cve" lowerQuery then
    (if isSubstr "container" lowerQuery then "ContainerVulnDetails" else "VulnDetails")
  else if isSubstr "kubernetes" lowerQuery || isSubstr "k8s" lowerQuery then
    "KubernetesActivity"
  else if isSubstr "network" lowerQuery || isSubstr "connection" lowerQuery then
    "NetworkActivity"
  else if isSubstr "user" lowerQuery || isSubstr "login" lowerQuery
      || isSubstr "auth" lowerQuery then "UserActivity"
  else "CloudTrailRawEvents"

/-- Render one WHERE condition of `buildLQLQuery` for a filter entry
(the `value !== undefined && value !== null` guard of the source is vacuous
here: extracted filter values are always strings). -/
def renderCondition (source key value : String) : String :=
  if strStartsWith ">=" value || strStartsWith "<=" value then
    mapFieldName key source ++ " " ++ (⟨value.data.take 2⟩ : String) ++ " " ++
      trimStr ⟨value.data.drop 2⟩
  else if value = "true" || value = "false" then
    mapFieldName key source ++ " = " ++ value
  else if value.data.contains ',' then
    mapFieldName key source ++ " IN (" ++
      joinWith ", " ((splitOnChar ',' value.data).map
        (fun v => "'" ++ trimStr ⟨v⟩ ++ "'")) ++ ")"
  else
    mapFieldName key source ++ " = '" ++ value ++ "'"

/-- `buildLQLQuery` (the `pattern` argument is accepted but, as in the
source, never used). -/
def buildLQLQuery (dataSource : Option DataSourceMapping)
    (_pattern : Option PatternOutcome)
    (filters : List (String × String)) (originalQuery : String) : String :=
  let source :=
    match dataSource with
    | some d => d.lqlSource
    | none => inferDataSourceFromQuery originalQuery
  let filterConds := filters.map (fun kv => renderCondition source kv.1 kv.2)
  let keywordConds :=
    (if isSubstr "fail" (lowerStr originalQuery) && source = "ComplianceEvaluationDetails"
     then ["STATUS = 'fail'"] else []) ++
    (if isSubstr "critical" (lowerStr originalQuery) && isSubstr "Vuln" source
     then ["SEVERITY = 'critical'"] else [])
  let whereConditions := filterConds ++ keywordConds
  "SELECT *\nFROM " ++ source ++
  (if whereConditions ≠ [] then "\nWHERE " ++ joinWith "\n  AND " whereConditions else "") ++
  (if isSubstr "Vuln" source || isSubstr "Compliance" source then "\nORDER BY SEVERITY DESC"
   else if source = "CloudTrailRawEvents" then "\nORDER BY EVENT_TIME DESC"
   else "") ++
  "\nLIMIT 100"

/-- The stop-word list of `LQLGenerator.generateName`. -/
def generatorStopWords : List String :=
  ["show", "get", "find", "list", "with", "that", "have"]

/-- `LQLGenerator.generateName`: significant words of the query, first
four, prefixed by `lacework-`. -/
def generateName (query : String) : String :=
  let words := (splitWs (stripNonWord (lowerStr query))).filter
    (fun word => 2 < word.length && !(generatorStopWords.contains word))
  "lacework-" ++ joinWith "-" (words.take 4)

/-- Round `s / 4` to the nearest integer, ties to even (`s ≥ 0` in every
use).  Working in units of `2 ^ (-55)`, this is IEEE-754 rounding of an
exact sum to the `2 ^ (-53)` grid of binary64 doubles in `[1/2, 1)`. -/
def roundQuarterTiesEven (s : Int) : Int :=
  let f := Int.fdiv s 4
  let r := s - 4 * f
  if r < 2 then f
  else if 2 < r then f + 1
  else if f % 2 = 0 then f
  else f + 1

/-- Correctly rounded binary64 addition of two doubles given in units of
`2 ^ (-55)`, valid when the exact sum lies in `[1/2, 1)` — the case for
every sum `calculateConfidence` performs (its largest value is
`1 - 2 ^ (-53)`). -/
def fpAdd55 (a b : Int) : Int := 4 * roundQuarterTiesEven (a + b)

/-- JS `Math.min` (on the non-NaN doubles that occur here). -/
def mathMin (a b : ℚ) : ℚ := if a ≤ b then a else b

/-- The literal `0.5` (exact), in units of `2 ^ (-55)`. -/
def halfD : Int := 18014398509481984

/-- The binary64 double denoted by the literal `0.2`
(`3602879701896397 * 2 ^ (-54)`), in units of `2 ^ (-55)`. -/
def pointTwoD : Int := 7205759403792794

/-- The binary64 double denoted by the literal `0.1`
(`3602879701896397 * 2 ^ (-55)`), in units of `2 ^ (-55)`. -/
def pointOneD : Int := 3602879701896397

/-- `calculateConfidence`: base 0.5, +0.2 per identified source and
matched pattern, +0.1 for any extracted filter, capped at 1.0 — in the
binary64 double arithmetic the program actually performs (in particular
`0.5+0.2+0.2 = 0.8999999999999999` and `+0.1 = 0.9999999999999999 =
1 - 2 ^ (-53)`, so the cap never engages). -/
def calculateConfidence (dataSource : Option DataSourceMapping)
    (pattern : Option PatternOutcome) (filters : List (String × String)) : ℚ :=
  let c1 := if dataSource.isSome then fpAdd55 halfD pointTwoD else halfD
  let c2 := if pattern.isSome then fpAdd55 c1 pointTwoD else c1
  let c3 := if filters ≠ [] then fpAdd55 c2 pointOneD else c2
  mathMin (mkRat c3 36028797018963968) 1

/-- JS object spread `{...base, ...updates}`: assign the updates left to
right on top of the base object. -/
def mergeParams (base updates : List (String × PVal)) : List (String × PVal) :=
  updates.foldl (fun acc kv => objSet acc kv.1 kv.2) base

/-- `generateFromNaturalLanguage`, the translator's single-pass pipeline
(`now` is the call-time instant of the `new Date()` calls). -/
def generateFromNaturalLanguage (now : Int) (naturalQuery : String) : LQLQueryResult :=
  let lowerQuery := lowerStr naturalQuery
  let dataSource := identifyDataSource lowerQuery
  let pattern := matchQueryPattern naturalQuery
  let filters := extractFilters lowerQuery
  let lqlQuery := buildLQLQuery dataSource pattern filters naturalQuery
  { query := lqlQuery
    category := match pattern with | some p => p.category | none => "general"
    suggestedName :=
      match pattern with | some p => p.suggestedName | none => generateName naturalQuery
    parameters :=
      mergeParams (match pattern with | some p => p.parameters | none => [])
        (filters.map (fun kv => (kv.1, PVal.s kv.2)))
    timeRange := extractTimeRange now lowerQuery
    confidence := calculateConfidence dataSource pattern filters }

/-! ## Projection lemmas for the translator pipeline -/

theorem generate_confidence_eq (now : Int) (text : String) :
    (generateFromNaturalLanguage now text).confidence =
      calculateConfidence (identifyDataSource (lowerStr text))
        (matchQueryPattern text) (extractFilters (lowerStr text)) := rfl

theorem generate_query_eq (now : Int) (text : String) :
    (generateFromNaturalLanguage now text).query =
      buildLQLQuery (identifyDataSource (lowerStr text)) (matchQueryPattern text)
        (extractFilters (lowerStr text)) text := rfl

theorem generate_timeRange_eq (now : Int) (text : String) :
    (generateFromNaturalLanguage now text).timeRange =
      extractTimeRange now (lowerStr text) := rfl

/-- The value table of the confidence heuristic: one binary64 double per
signal combination.  The three doubles of the all-signal region are the
program's `0.7999999999999999`, `0.8999999999999999` and
`0.9999999999999999` — not `0.8`, `0.9` or `1.0`. -/
theorem calculateConfidence_eval (d : Option DataSourceMapping)
    (p : Option PatternOutcome) (f : List (String × String)) :
    calculateConfidence d p f =
      if d.isSome then
        if p.isSome then
          if f ≠ [] then (9007199254740991 : ℚ) / 9007199254740992
          else (8106479329266892 : ℚ) / 9007199254740992
        else
          if f ≠ [] then (7205759403792793 : ℚ) / 9007199254740992
          else (6305039478318694 : ℚ) / 9007199254740992
      else
        if p.isSome then
          if f ≠ [] then (7205759403792793 : ℚ) / 9007199254740992
          else (6305039478318694 : ℚ) / 9007199254740992
        else
          if f ≠ [] then (5404319552844595 : ℚ) / 9007199254740992
          else 1/2 := by
  unfold calculateConfidence
  split_ifs <;>
    norm_num [mathMin, Rat.mkRat_eq_div, fpAdd55, roundQuarterTiesEven,
      halfD, pointTwoD, pointOneD, Int.fdiv]

/-- The confidence heuristic stays within `[1/2, 1]`. -/
theorem calculateConfidence_bounds (d : Option DataSourceMapping)
    (p : Option PatternOutcome) (f : List (String × String)) :
    1/2 ≤ calculateConfidence d p f ∧ calculateConfidence d p f ≤ 1 := by
  rw [calculateConfidence_eval]
  split_ifs <;> constructor <;> norm_num

/-- The confidence heuristic takes only six (double) values. -/
theorem calculateConfidence_enum_fp (d : Option DataSourceMapping)
    (p : Option PatternOutcome) (f : List (String × String)) :
    calculateConfidence d p f = 1/2 ∨
    calculateConfidence d p f = (5404319552844595 : ℚ) / 9007199254740992 ∨
    calculateConfidence d p f = (6305039478318694 : ℚ) / 9007199254740992 ∨
    calculateConfidence d p f = (7205759403792793 : ℚ) / 9007199254740992 ∨
    calculateConfidence d p f = (8106479329266892 : ℚ) / 9007199254740992 ∨
    calculateConfidence d p f = (9007199254740991 : ℚ) / 9007199254740992 := by
  rw [calculateConfidence_eval]
  split_ifs <;> norm_num

/-- The confidence is always strictly below 1: the `Math.min(·, 1.0)` cap
never engages. -/
theorem calculateConfidence_lt_one (d : Option DataSourceMapping)
    (p : Option PatternOutcome) (f : List (String × String)) :
    calculateConfidence d p f < 1 := by
  rw [calculateConfidence_eval]
  split_ifs <;> norm_num

/-- The maximum value `1 - 2 ^ (-53)` (the program's
`0.9999999999999999`) is attained exactly when all three signals are
present. -/
theorem calculateConfidence_max_iff (d : Option DataSourceMapping)
    (p : Option PatternOutcome) (f : List (String × String)) :
    calculateConfidence d p f = (9007199254740991 : ℚ) / 9007199254740992 ↔
      (d.isSome ∧ p.isSome ∧ f ≠ []) := by
  rw [calculateConfidence_eval]
  split_ifs <;> simp_all <;> norm_num

/-- Every generated query string is non-empty (it always starts with the
`SELECT *\nFROM ` prefix). -/
theorem buildLQLQuery_ne_empty (d : Option DataSourceMapping)
    (p : Option PatternOutcome) (f : List (String × String)) (q : String) :
    buildLQLQuery d p f q ≠ "" := by
  unfold buildLQLQuery
  intro h
  have h2 := congrArg String.length h
  simp only [String.length_append] at h2
  have hx : ("SELECT *\nFROM " : String).length = 14 := rfl
  have hy : ("" : String).length = 0 := rfl
  omega

/-- `extractTimeRange` always yields a window whose start does not exceed
its end. -/
theorem extractTimeRange_some (now : Int) (q : String) :
    ∃ tr, extractTimeRange now q = some tr ∧ tr.start ≤ tr.stop := by
  unfold extractTimeRange timePhrases
  simp only [List.findSome?_cons, List.findSome?_nil]
  split_ifs <;> exact ⟨_, rfl, by show now - _ ≤ now; omega⟩

/-- When no relative-time phrase occurs, `extractTimeRange` is the default
trailing 24-hour window. -/
theorem extractTimeRange_default (now : Int) (q : String)
    (h : timePhrases.all (fun p => !(p.1.any (fun w => isSubstr w q))) = true) :
    extractTimeRange now q = some { start := now - 24 * 60 * 60 * 1000, stop := now } := by
  unfold timePhrases at h
  simp only [List.all_cons, List.all_nil, Bool.and_eq_true, Bool.not_eq_true'] at h
  unfold extractTimeRange timePhrases
  simp only [List.findSome?_cons, List.findSome?_nil]
  simp [h.1, h.2.1, h.2.2.1, h.2.2.2.1, h.2.2.2.2.1, h.2.2.2.2.2.1]

/-- C1: for every input text (and every call instant), the translator
terminates (it is a total function) and returns a `TranslationResult`
whose confidence lies in `[0,1]`, whose query string is non-empty, and
whose time window satisfies `start ≤ end`; when none of the ordered
relative-time phrases occurs in the text, the window is the default
trailing 24-hour window anchored at the call instant (the phrase list is
evaluated first-match-wins by `extractTimeRange`). -/
theorem translator_total_wellformed (now : Int) (text : String) :
    (0 ≤ (generateFromNaturalLanguage now text).confidence ∧
      (generateFromNaturalLanguage now text).confidence ≤ 1) ∧
    (generateFromNaturalLanguage now text).query ≠ "" ∧
    (∃ tr, (generateFromNaturalLanguage now text).timeRange = some tr ∧
      tr.start ≤ tr.stop) ∧
    (timePhrases.all (fun p => !(p.1.any (fun w => isSubstr w (lowerStr text)))) = true →
      (generateFromNaturalLanguage now text).timeRange =
        some { start := now - 24 * 60 * 60 * 1000, stop := now }) := by
  refine ⟨⟨?_, ?_⟩, ?_, ?_, ?_⟩
  · rw [generate_confidence_eq]
    exact le_trans (by norm_num) (calculateConfidence_bounds _ _ _).1
  · rw [generate_confidence_eq]
    exact (calculateConfidence_bounds _ _ _).2
  · rw [generate_query_eq]
    exact buildLQLQuery_ne_empty _ _ _ _
  · rw [generate_timeRange_eq]
    exact extractTimeRange_some now (lowerStr text)
  · intro h
    rw [generate_timeRange_eq]
    exact extractTimeRange_default now (lowerStr text) h

/-- Witness for `translator_total_wellformed`: instantiation at a concrete
input whose text has no relative-time phrase, discharging the hypothesis of
the default-window conjunct. -/
theorem translator_total_wellformed_witness :
    (0 ≤ (generateFromNaturalLanguage 0 "show s3 buckets").confidence ∧
      (generateFromNaturalLanguage 0 "show s3 buckets").confidence ≤ 1) ∧
    (generateFromNaturalLanguage 0 "show s3 buckets").query ≠ "" ∧
    (∃ tr, (generateFromNaturalLanguage 0 "show s3 buckets").timeRange = some tr ∧
      tr.start ≤ tr.stop) ∧
    (generateFromNaturalLanguage 0 "show s3 buckets").timeRange =
      some { start := 0 - 24 * 60 * 60 * 1000, stop := 0 } := by
  have h := translator_total_wellformed 0 "show s3 buckets"
  exact ⟨h.1, h.2.1, h.2.2.1, h.2.2.2 (by decide)⟩

/-- C8: on the input `"find critical vulnerabilities in containers"` the
translator selects the container-vulnerability source
(`ContainerVulnDetails`: the static `containers` mapping wins in
`identifyDataSource` and its source names the generated query), and the
returned parameter map binds `severity` to `"critical"`. -/
theorem translate_critical_container_vulns (now : Int) :
    ((identifyDataSource (lowerStr "find critical vulnerabilities in containers")).map
        (fun d => d.lqlSource) = some "ContainerVulnDetails") ∧
    isSubstr "FROM ContainerVulnDetails"
      (generateFromNaturalLanguage now "find critical vulnerabilities in containers").query
      = true ∧
    objGet (generateFromNaturalLanguage now
        "find critical vulnerabilities in containers").parameters "severity"
      = some (PVal.s "critical") := by
  refine ⟨by decide, ?_, ?_⟩
  · rw [generate_query_eq]; decide
  · show objGet (mergeParams _ _) _ = _
    decide

/-- C10 counterexample: on `"show containers with high risk scores"` all
three signals are present (the containers source is identified, the
risk-assessment pattern matches, and filters are extracted), yet the
confidence the program computes is `0.9999999999999999 = 1 - 2 ^ (-53)`,
not `1.0` — and equals none of `0.8`, `0.9`, `1.0`: the 1.0 cap is never
exactly attained and the claimed six-value enumeration fails. -/
theorem confidence_never_exactly_one :
    ((identifyDataSource (lowerStr "show containers with high risk scores")).isSome = true ∧
     (matchQueryPattern "show containers with high risk scores").isSome = true ∧
     extractFilters (lowerStr "show containers with high risk scores") ≠ []) ∧
    (generateFromNaturalLanguage 0 "show containers with high risk scores").confidence
      = (9007199254740991 : ℚ) / 9007199254740992 ∧
    (generateFromNaturalLanguage 0 "show containers with high risk scores").confidence ≠ 1 ∧
    (generateFromNaturalLanguage 0 "show containers with high risk scores").confidence ≠ 4/5 ∧
    (generateFromNaturalLanguage 0 "show containers with high risk scores").confidence
      ≠ 9/10 := by
  have h1 : (identifyDataSource
      (lowerStr "show containers with high risk scores")).isSome = true := by decide
  have h2 : (matchQueryPattern "show containers with high risk scores").isSome = true := by
    decide
  have h3 : extractFilters (lowerStr "show containers with high risk scores") ≠ [] := by
    decide
  have hc : (generateFromNaturalLanguage 0 "show containers with high risk scores").confidence
      = (9007199254740991 : ℚ) / 9007199254740992 := by
    rw [generate_confidence_eq, calculateConfidence_eval]
    simp [h1, h2, h3]
  refine ⟨⟨h1, h2, h3⟩, hc, ?_, ?_, ?_⟩ <;> rw [hc] <;> norm_num

/-- C10 (corrected): the translator's confidence is never below the 0.5
base and takes only six values, one per signal combination — but in the
binary64 arithmetic the program performs these are 0.5, 0.6, 0.7,
0.7999999999999999, 0.8999999999999999 and 0.9999999999999999: the
decimal values 0.8, 0.9 and 1.0 are never attained, the confidence is
always strictly below 1, the `Math.min(·, 1.0)` cap never engages, and
the maximum `1 - 2 ^ (-53)` is attained exactly when all three signals
are present (data source identified, pattern matched, at least one
filter extracted); the spec's `[0,1]` range is never exercised below 0.5
nor at 1. -/
theorem confidence_fp_discrete_range (now : Int) (text : String) :
    (1/2 ≤ (generateFromNaturalLanguage now text).confidence) ∧
    ((generateFromNaturalLanguage now text).confidence = 1/2 ∨
     (generateFromNaturalLanguage now text).confidence
       = (5404319552844595 : ℚ) / 9007199254740992 ∨
     (generateFromNaturalLanguage now text).confidence
       = (6305039478318694 : ℚ) / 9007199254740992 ∨
     (generateFromNaturalLanguage now text).confidence
       = (7205759403792793 : ℚ) / 9007199254740992 ∨
     (generateFromNaturalLanguage now text).confidence
       = (8106479329266892 : ℚ) / 9007199254740992 ∨
     (generateFromNaturalLanguage now text).confidence
       = (9007199254740991 : ℚ) / 9007199254740992) ∧
    ((generateFromNaturalLanguage now text).confidence < 1) ∧
    ((generateFromNaturalLanguage now text).confidence
        = (9007199254740991 : ℚ) / 9007199254740992 ↔
      ((identifyDataSource (lowerStr text)).isSome ∧
       (matchQueryPattern text).isSome ∧
       extractFilters (lowerStr text) ≠ [])) := by
  rw [generate_confidence_eq]
  exact ⟨(calculateConfidence_bounds _ _ _).1, calculateConfidence_enum_fp _ _ _,
    calculateConfidence_lt_one _ _ _, calculateConfidence_max_iff _ _ _⟩

/-! ## Dynamic Capability Registry: data model (`dynamic-registry.ts`) -/

/-- One property of a generated JSON input schema. -/
structure PropSchema where
  type : String
  enumVals : Option (List String)
  description : String
deriving DecidableEq, Repr

/-- The `inputSchema` of a dynamic tool (`type: "object"` is implicit;
`properties` is insertion-ordered; `required` is always empty). -/
structure InputSchema where
  properties : List (String × PropSchema)
  required : List String
deriving DecidableEq, Repr

/-- `generateInputSchema`: universal optional `startTime`/`endTime`
fields, then one property per translation parameter (well-known keys map
to enumerated fragments, unknown keys to generic string fields). -/
def generateInputSchema (lqlQuery : LQLQueryResult) : InputSchema :=
  let base : List (String × PropSchema) :=
    [ ("startTime",
       { type := "string", enumVals := none
         description := "Start time for the query (ISO 8601 format, optional)" }),
      ("endTime",
       { type := "string", enumVals := none
         description := "End time for the query (ISO 8601 format, optional)" }) ]
  let props := lqlQuery.parameters.foldl (fun acc kv =>
    match kv.1 with
    | "severity" =>
      objSet acc "severity"
        { type := "string", enumVals := some ["low", "medium", "high", "critical"]
          description := "Filter by severity level" }
    | "cloud_provider" =>
      objSet acc "cloudProvider"
        { type := "string", enumVals := some ["aws", "gcp", "azure"]
          description := "Filter by cloud provider" }
    | "region" =>
      objSet acc "region"
        { type := "string", enumVals := none, description := "Filter by cloud region" }
    | "status" =>
      objSet acc "status"
        { type := "string", enumVals := some ["active", "inactive", "fail", "pass"]
          description := "Filter by status" }
    | "resource_type" =>
      objSet acc "resourceType"
        { type := "string", enumVals := none, description := "Filter by resource type" }
    | key =>
      objSet acc key
        { type := "string", enumVals := none, description := "Filter by " ++ key }) base
  { properties := props, required := [] }

/-- `DynamicTool` of `dynamic-registry.ts`.  The bound executor closure is
represented by its two captured values (`naturalLanguage`, the
`originalDescription` of `executeDynamicQuery`, and `queryPattern`);
timestamps are Int epoch-milliseconds. -/
structure DynamicTool where
  name : String
  description : String
  inputSchema : InputSchema
  naturalLanguage : String
  queryPattern : LQLQueryResult
  created : Int
  lastUsed : Option Int
  usageCount : Nat
deriving DecidableEq

/-- The registry's `tools: Map<string, DynamicTool>`, insertion-ordered. -/
abbrev Registry : Type := List (String × DynamicTool)

/-- The stop-word list of `DynamicToolRegistry.generateToolName`. -/
def registryStopWords : List String :=
  ["show", "get", "find", "list", "with", "that", "have", "the", "and", "for", "me", "all"]

/-- `generateToolName`: category-specific prefix plus the first three
significant (stop-word-filtered, length > 2) words of the description. -/
def generateToolName (description category : String) : String :=
  let words := (splitWs (stripNonWord (lowerStr description))).filter
    (fun word => 2 < word.length && !(registryStopWords.contains word))
  let pre :=
    if category = "aws" then "get-aws"
    else if category = "containers" then "get-container"
    else if category = "compliance" then "get-compliance"
    else if category = "threats" then "find-threat"
    else "get"
  pre ++ "-" ++ joinWith "-" (words.take 3)

/-- `createDynamicTool` (its `try/catch` cannot fire: the body performs no
failing operation, so the `null` branch is dead and the model is total).
New tools start with `usageCount = 0` and no `lastUsed`. -/
def createDynamicTool (now : Int) (name naturalLanguage : String)
    (lqlQuery : LQLQueryResult) : DynamicTool :=
  { name := name
    description := "Dynamically generated tool: " ++ naturalLanguage
    inputSchema := generateInputSchema lqlQuery
    naturalLanguage := naturalLanguage
    queryPattern := lqlQuery
    created := now
    lastUsed := none
    usageCount := 0 }

/-- `registerToolFromQuery`: canonical name from `(originalQuery,
category)`; an existing entry is treated as re-use (bump `lastUsed` and
`usageCount`), otherwise a fresh tool with `usageCount = 0` is inserted. -/
def registerToolFromQuery (now : Int) (lqlQuery : LQLQueryResult)
    (originalQuery : String) (tools : Registry) : Registry :=
  let toolName := generateToolName originalQuery lqlQuery.category
  match objGet tools toolName with
  | some existingTool =>
    objSet tools toolName
      { existingTool with lastUsed := some now, usageCount := existingTool.usageCount + 1 }
  | none => objSet tools toolName (createDynamicTool now toolName originalQuery lqlQuery)

/-- The usage-stats half of `executeDynamicQuery` (query execution itself
is delegated to the collaborator and does not touch the registry): the
entry looked up under the *recomputed* canonical name — not necessarily
the name the tool is registered under — gets `lastUsed`/`usageCount`
bumped; a miss silently updates nothing. -/
def executeDynamicQueryStats (now : Int) (lqlQuery : LQLQueryResult)
    (originalDescription : String) (tools : Registry) : Registry :=
  let toolName := generateToolName originalDescription lqlQuery.category
  match objGet tools toolName with
  | some t =>
    objSet tools toolName { t with lastUsed := some now, usageCount := t.usageCount + 1 }
  | none => tools

/-- The registry-state effect of `executeTool name args`: run the bound
generator of the named tool, i.e. `executeDynamicQuery` with the values
captured at creation; an unknown name leaves the registry unchanged. -/
def executeTool (now : Int) (name : String) (tools : Registry) : Registry :=
  match objGet tools name with
  | some tool => executeDynamicQueryStats now tool.queryPattern tool.naturalLanguage tools
  | none => tools

/-- `lastUsed ?? created`: the most recent activity instant used by
`pruneUnusedTools`. -/
def lastActivity (t : DynamicTool) : Int :=
  match t.lastUsed with
  | some lu => lu
  | none => t.created

/-- `pruneUnusedTools`: delete every entry with `usageCount == 0` whose
last activity is more than `maxAge` ago; return the surviving registry
together with the number removed. -/
def pruneUnusedTools (now maxAge : Int) : Registry → Registry × Nat
  | [] => ([], 0)
  | (k, t) :: rest =>
    let r := pruneUnusedTools now maxAge rest
    if now - lastActivity t > maxAge ∧ t.usageCount = 0 then (r.1, r.2 + 1)
    else ((k, t) :: r.1, r.2)

/-- `exportTools`: the tool records in insertion order. -/
def exportTools (tools : Registry) : List DynamicTool :=
  tools.map (fun p => p.2)

/-- `importTools`: `tools.set(tool.name, tool)` for each imported record,
overwriting same-name entries. -/
def importTools (imported : List DynamicTool) (tools : Registry) : Registry :=
  imported.foldl (fun acc t => objSet acc t.name t) tools

/-! ## Registry lemmas -/

/-- In-place replacement puts `(k, v)` where the first `k`-binding was. -/
theorem find?_map_set {α : Type} (m : List (String × α)) (k : String) (v : α)
    (h : m.any (fun p => p.1 = k) = true) :
    (m.map (fun p => if p.1 = k then (k, v) else p)).find? (fun p => p.1 = k)
      = some (k, v) := by
  induction m with
  | nil => simp at h
  | cons p m ih =>
    simp only [List.map_cons]
    by_cases hp : p.1 = k
    · simp [List.find?, hp]
    · rw [if_neg hp]
      simp only [List.any_cons, Bool.or_eq_true, decide_eq_true_eq] at h
      rcases h with h | h
      · exact absurd h hp
      · simp only [List.find?]
        rw [decide_eq_false hp]
        exact ih h

/-- Appending a fresh binding makes it the first (and only) `k`-binding. -/
theorem find?_append_single {α : Type} (m : List (String × α)) (k : String) (v : α)
    (h : m.any (fun p => p.1 = k) = false) :
    (m ++ [(k, v)]).find? (fun p => p.1 = k) = some (k, v) := by
  induction m with
  | nil => simp [List.find?]
  | cons p m ih =>
    simp only [List.any_cons, Bool.or_eq_false_iff, decide_eq_false_iff_not] at h
    simp only [List.cons_append, List.find?]
    rw [decide_eq_false h.1]
    exact ih (by simp [h.2])

/-- After `objSet m k v`, looking up `k` yields `v`. -/
theorem objGet_objSet_self {α : Type} (m : List (String × α)) (k : String) (v : α) :
    objGet (objSet m k v) k = some v := by
  unfold objSet objGet
  by_cases h : m.any (fun p => p.1 = k)
  · simp only [h, if_true, find?_map_set m k v h]
    rfl
  · rw [if_neg (by simp [h]),
      find?_append_single m k v (Bool.not_eq_true _ ▸ eq_false_of_ne_true h)]
    rfl

/-- Replacing a key by the value it already (uniquely) holds is the
identity on the underlying list. -/
theorem map_set_eq_self {α : Type} (m : List (String × α)) (k : String) (v : α)
    (huniq : ∀ p ∈ m, p.1 = k → p = (k, v)) :
    m.map (fun p => if p.1 = k then (k, v) else p) = m := by
  induction m with
  | nil => rfl
  | cons p m ih =>
    simp only [List.map_cons]
    congr 1
    · by_cases hp : p.1 = k
      · rw [if_pos hp]
        exact (huniq p (List.mem_cons_self p m) hp).symm
      · exact if_neg hp
    · exact ih (fun q hq hqk => huniq q (List.mem_cons_of_mem _ hq) hqk)

/-- `objSet` with the value already present (under unique keys) is the
identity. -/
theorem objSet_eq_self {α : Type} (m : List (String × α)) (k : String) (v : α)
    (hmem : (k, v) ∈ m) (huniq : ∀ p ∈ m, p.1 = k → p = (k, v)) :
    objSet m k v = m := by
  unfold objSet
  have hany : m.any (fun p => p.1 = k) = true := by
    simp only [List.any_eq_true, decide_eq_true_eq]
    exact ⟨(k, v), hmem, rfl⟩
  rw [if_pos hany]
  exact map_set_eq_self m k v huniq

/-- Under unique keys, two entries with the same key coincide. -/
theorem key_unique_of_nodup {α : Type} (m : List (String × α))
    (hn : (m.map (fun p => p.1)).Nodup) :
    ∀ p ∈ m, ∀ q ∈ m, p.1 = q.1 → p = q := by
  induction m with
  | nil => simp
  | cons a l ih =>
    simp only [List.map_cons, List.nodup_cons] at hn
    intro p hp q hq hk
    rcases List.mem_cons.mp hp with rfl | hp' <;> rcases List.mem_cons.mp hq with rfl | hq'
    · rfl
    · exact absurd (hk ▸ List.mem_map_of_mem (fun p => p.1) hq') hn.1
    · exact absurd (hk ▸ List.mem_map_of_mem (fun p => p.1) hp') hn.1
    · exact ih hn.2 p hp' q hq' hk

/-! ## Claims about the registry -/

/-- C2 counterexample: registering the same translation of
`"find critical vulnerabilities in containers"` twice yields one
capability whose `usageCount` is `1`, not `2` (creation initialises the
counter to 0 and only the second, re-use call bumps it). -/
theorem register_twice_usageCount_not_two :
    ((registerToolFromQuery 2
        (generateFromNaturalLanguage 0 "find critical vulnerabilities in containers")
        "find critical vulnerabilities in containers"
        (registerToolFromQuery 1
          (generateFromNaturalLanguage 0 "find critical vulnerabilities in containers")
          "find critical vulnerabilities in containers" [])).map
      (fun p => p.2.usageCount) = [1]) ∧
    ¬ ((registerToolFromQuery 2
        (generateFromNaturalLanguage 0 "find critical vulnerabilities in containers")
        "find critical vulnerabilities in containers"
        (registerToolFromQuery 1
          (generateFromNaturalLanguage 0 "find critical vulnerabilities in containers")
          "find critical vulnerabilities in containers" [])).map
      (fun p => p.2.usageCount) = [2]) := by
  constructor <;> decide

/-- C2 (amended): two `registerToolFromQuery` calls with an identical
translation result and identical original text produce exactly one
capability (the name generator is deterministic), and after the second
call that capability's `usageCount` equals 1 and its `lastUsed` is the
second call's instant. -/
theorem register_twice_one_capability (now1 now2 : Int) (lql : LQLQueryResult)
    (text : String) :
    (registerToolFromQuery now2 lql text
      (registerToolFromQuery now1 lql text [])).length = 1 ∧
    (objGet (registerToolFromQuery now2 lql text
        (registerToolFromQuery now1 lql text []))
      (generateToolName text lql.category)).map (fun t => t.usageCount) = some 1 ∧
    (objGet (registerToolFromQuery now2 lql text
        (registerToolFromQuery now1 lql text []))
      (generateToolName text lql.category)).map (fun t => t.lastUsed)
      = some (some now2) := by
  have h1 : registerToolFromQuery now1 lql text [] =
      [(generateToolName text lql.category,
        createDynamicTool now1 (generateToolName text lql.category) text lql)] := by
    unfold registerToolFromQuery
    simp [objGet, objSet, List.find?]
  rw [h1]
  unfold registerToolFromQuery
  simp [objGet, objSet, List.find?, createDynamicTool]

/-- C4: `pruneUnusedTools` removes exactly the capabilities with
`usageCount == 0` whose most recent activity (`lastUsed`, else `created`)
is strictly older than `maxAge`, returns the number removed, and retains
every capability with `usageCount > 0` regardless of age. -/
theorem prune_removes_exactly (now maxAge : Int) (tools : Registry) :
    (pruneUnusedTools now maxAge tools).1 =
      tools.filter (fun p =>
        !(decide (now - lastActivity p.2 > maxAge) && decide (p.2.usageCount = 0))) ∧
    (pruneUnusedTools now maxAge tools).2 =
      (tools.filter (fun p =>
        decide (now - lastActivity p.2 > maxAge) && decide (p.2.usageCount = 0))).length ∧
    (∀ p ∈ tools, 0 < p.2.usageCount → p ∈ (pruneUnusedTools now maxAge tools).1) := by
  have key : (pruneUnusedTools now maxAge tools).1 =
      tools.filter (fun p =>
        !(decide (now - lastActivity p.2 > maxAge) && decide (p.2.usageCount = 0))) ∧
      (pruneUnusedTools now maxAge tools).2 =
      (tools.filter (fun p =>
        decide (now - lastActivity p.2 > maxAge) && decide (p.2.usageCount = 0))).length := by
    induction tools with
    | nil => exact ⟨rfl, rfl⟩
    | cons a l ih =>
      obtain ⟨k, t⟩ := a
      simp only [pruneUnusedTools]
      by_cases hc : now - lastActivity t > maxAge ∧ t.usageCount = 0
      · rw [if_pos hc]
        have hb : (decide (now - lastActivity t > maxAge) &&
            decide (t.usageCount = 0)) = true := by simp [hc.1, hc.2]
        constructor
        · show (pruneUnusedTools now maxAge l).1 = _
          rw [List.filter_cons, hb]
          simp only [Bool.not_true, Bool.false_eq_true, if_false]
          exact ih.1
        · show (pruneUnusedTools now maxAge l).2 + 1 = _
          rw [List.filter_cons, hb, if_pos rfl, List.length_cons, ih.2]
      · rw [if_neg hc]
        have hb : (decide (now - lastActivity t > maxAge) &&
            decide (t.usageCount = 0)) = false := by
          rcases Classical.em (now - lastActivity t > maxAge) with h1 | h1
          · have h2 : ¬ t.usageCount = 0 := fun h2 => hc ⟨h1, h2⟩
            simp [h2]
          · simp [h1]
        constructor
        · show (k, t) :: (pruneUnusedTools now maxAge l).1 = _
          rw [List.filter_cons, hb, Bool.not_false, if_pos rfl, ih.1]
        · show (pruneUnusedTools now maxAge l).2 = _
          rw [List.filter_cons, hb]
          simp only [Bool.false_eq_true, if_false]
          exact ih.2
  refine ⟨key.1, key.2, ?_⟩
  intro p hp hu
  rw [key.1]
  apply List.mem_filter.mpr
  refine ⟨hp, ?_⟩
  have : decide (p.2.usageCount = 0) = false := decide_eq_false (by omega)
  simp [this]

/-- Witness for `prune_removes_exactly`: a two-entry registry (one stale
unused tool, one used tool) where exactly the stale unused entry is
removed and the used one is retained. -/
theorem prune_removes_exactly_witness :
    ((pruneUnusedTools 100 10
        [("a", createDynamicTool 0 "a" "x" (generateFromNaturalLanguage 0 "x")),
         ("b", { createDynamicTool 0 "b" "y" (generateFromNaturalLanguage 0 "y") with
                   usageCount := 3 })]).1.map (fun p => p.1) = ["b"]) ∧
    ((pruneUnusedTools 100 10
        [("a", createDynamicTool 0 "a" "x" (generateFromNaturalLanguage 0 "x")),
         ("b", { createDynamicTool 0 "b" "y" (generateFromNaturalLanguage 0 "y") with
                   usageCount := 3 })]).2 = 1) ∧
    (("b", { createDynamicTool 0 "b" "y" (generateFromNaturalLanguage 0 "y") with
               usageCount := 3 }) ∈
      (pruneUnusedTools 100 10
        [("a", createDynamicTool 0 "a" "x" (generateFromNaturalLanguage 0 "x")),
         ("b", { createDynamicTool 0 "b" "y" (generateFromNaturalLanguage 0 "y") with
                   usageCount := 3 })]).1) := by
  have h := prune_removes_exactly 100 10
    [("a", createDynamicTool 0 "a" "x" (generateFromNaturalLanguage 0 "x")),
     ("b", { createDynamicTool 0 "b" "y" (generateFromNaturalLanguage 0 "y") with
               usageCount := 3 })]
  refine ⟨?_, ?_, ?_⟩
  · rw [h.1]; decide
  · rw [h.2.1]; decide
  · exact h.2.2 _ (List.mem_cons_of_mem _ (List.mem_cons_self _ _)) (by decide)

/-- C5: importing the export of a registry reproduces it exactly (same
names, schemas and usage counters — the whole tool records coincide), and
an import overwrites any existing entry with the same name. -/
theorem export_import_roundtrip (tools : Registry)
    (hc : ∀ p ∈ tools, p.2.name = p.1)
    (hn : (tools.map (fun p => p.1)).Nodup) :
    importTools (exportTools tools) tools = tools ∧
    ∀ (s : Registry) (t : DynamicTool), objGet (importTools [t] s) t.name = some t := by
  constructor
  · have huniq := key_unique_of_nodup tools hn
    have main : ∀ l : List DynamicTool, (∀ t ∈ l, (t.name, t) ∈ tools) →
        importTools l tools = tools := by
      intro l
      induction l with
      | nil => intro _; rfl
      | cons t l ih =>
        intro h
        have hmem : (t.name, t) ∈ tools := h t (List.mem_cons_self t l)
        unfold importTools
        simp only [List.foldl_cons]
        rw [objSet_eq_self tools t.name t hmem
          (fun q hq hqk => huniq q hq (t.name, t) hmem hqk)]
        exact ih (fun u hu => h u (List.mem_cons_of_mem _ hu))
    apply main
    intro t ht
    simp only [exportTools, List.mem_map] at ht
    obtain ⟨p, hp, rfl⟩ := ht
    rw [hc p hp]
    exact Prod.mk.eta ▸ hp
  · intro s t
    unfold importTools
    simp only [List.foldl_cons, List.foldl_nil]
    exact objGet_objSet_self s t.name t

/-- Witness for `export_import_roundtrip`: a concrete one-tool registry. -/
theorem export_import_roundtrip_witness :
    importTools
      (exportTools
        [("get-x", createDynamicTool 0 "get-x" "x" (generateFromNaturalLanguage 0 "x"))])
      [("get-x", createDynamicTool 0 "get-x" "x" (generateFromNaturalLanguage 0 "x"))]
      = [("get-x", createDynamicTool 0 "get-x" "x" (generateFromNaturalLanguage 0 "x"))] ∧
    ∀ (s : Registry) (t : DynamicTool), objGet (importTools [t] s) t.name = some t :=
  export_import_roundtrip
    [("get-x", createDynamicTool 0 "get-x" "x" (generateFromNaturalLanguage 0 "x"))]
    (by decide) (by decide)

/-! ## Data Source Catalog and Field Resolver (`data-source-explorer.ts`,
`query-builder.ts`) -/

/-- `FieldInfo` of the explorer.  The optional `sampleValues`/`nullable`
are modelled with `[]`/`false` standing for "absent" (no embedded function
distinguishes an absent list/flag from an empty/false one). -/
structure FieldInfo where
  name : String
  type : String
  description : Option String
  sampleValues : List String
  nullable : Bool
deriving DecidableEq, Repr

/-- `DataSourceInfo` of the explorer (the `sampleData` member is never
written or read by the embedded operations and is omitted). -/
structure DataSourceInfo where
  name : String
  category : String
  description : String
  fields : Option (List FieldInfo)
deriving DecidableEq, Repr

/-- The static cross-source `commonMappings` table of
`QueryBuilder.mapFilterToField`. -/
def commonMappings : List (String × String) :=
  [ ("region", "RESOURCE_REGION"), ("account", "ACCOUNT_ID"),
    ("subscription", "SUBSCRIPTION_ID"), ("time", "EVENT_TIME"),
    ("user", "USER_NAME"), ("error", "ERROR_CODE"), ("severity", "SEVERITY"),
    ("status", "STATUS"), ("id", "RESOURCE_ID"), ("name", "RESOURCE_NAME"),
    ("type", "RESOURCE_TYPE"), ("resource_group", "RESOURCE_GROUP_NAME") ]

/-- `QueryBuilder.mapFilterToField`: (1) exact case-insensitive field-name
match, (2) substring match against field names or descriptions, (3) the
static cross-source table, (4) the upper-cased verbatim filter key. -/
def mapFilterToField (filterKey : String) (sourceInfo : DataSourceInfo) : String :=
  let fieldMatch :=
    match sourceInfo.fields with
    | some fields =>
      match fields.find? (fun f => lowerStr f.name = lowerStr filterKey) with
      | some f => some f.name
      | none =>
        match fields.find? (fun f =>
            isSubstr (lowerStr filterKey) (lowerStr f.name) ||
            (match f.description with
             | some d => isSubstr (lowerStr filterKey) (lowerStr d)
             | none => false)) with
        | some f => some f.name
        | none => none
    | none => none
  match fieldMatch with
  | some n => n
  | none =>
    match objGet commonMappings (lowerStr filterKey) with
    | some m => m
    | none => upperStr filterKey

/-- `getKnownDataSources`: the static known-sources seed of the explorer
(fields are not populated in the seed). -/
def getKnownDataSources : List DataSourceInfo :=
  [ { name := "LW_CFG_AWS_EC2_INSTANCES", category := "AWS"
      description := "AWS EC2 instances configuration and state", fields := none },
    { name := "LW_CFG_AWS_S3", category := "AWS"
      description := "AWS S3 buckets configuration and policies", fields := none },
    { name := "LW_CFG_AZURE_COMPUTE_VIRTUALMACHINES", category := "Azure"
      description := "Azure virtual machines configuration", fields := none },
    { name := "CloudTrailRawEvents", category := "Activity"
      description := "AWS CloudTrail API activity events", fields := none },
    { name := "ContainerVulnDetails", category := "Containers"
      description := "Container vulnerability scan results", fields := none },
    { name := "ComplianceEvaluationDetails", category := "Compliance"
      description := "Compliance policy evaluation results", fields := none } ]

/-- Upper-casing preserves non-emptiness. -/
theorem upperStr_ne_empty (s : String) (h : s ≠ "") : upperStr s ≠ "" := by
  intro he
  apply h
  have hd : s.data.map ucChar = [] := congrArg String.data he
  have hnil : s.data = [] := List.map_eq_nil_iff.mp hd
  cases s with
  | mk data => simp_all [String.ext_iff]

/-- A successful `objGet` exposes a member binding. -/
theorem objGet_mem {α : Type} {m : List (String × α)} {k : String} {v : α}
    (h : objGet m k = some v) : ∃ p ∈ m, p.1 = k ∧ p.2 = v := by
  unfold objGet at h
  obtain ⟨p, hfind, hv⟩ := Option.map_eq_some'.mp h
  exact ⟨p, List.mem_of_find?_eq_some hfind, by simpa using List.find?_some hfind, hv⟩

/-- C3 counterexample: on the empty filter key, the known (seed) EC2 data
source — which has no cached fields — resolves to the empty string
(`"".toUpperCase()`), so the resolver does *not* always produce a
non-empty field name. -/
theorem resolver_empty_key_empty_result :
    mapFilterToField ""
      { name := "LW_CFG_AWS_EC2_INSTANCES", category := "AWS"
        description := "AWS EC2 instances configuration and state", fields := none } = "" ∧
    ({ name := "LW_CFG_AWS_EC2_INSTANCES", category := "AWS"
       description := "AWS EC2 instances configuration and state",
       fields := none } : DataSourceInfo) ∈ getKnownDataSources := by
  constructor <;> decide

/-- C3 (amended): for every *non-empty* filter key and every data source
whose cached field names (if any) are non-empty — in particular every
known seed source, which has no cached fields — the resolver ladder
produces a non-empty field name and never fails; when the source has no
cached fields and the key is not in the cross-source table, the result is
exactly the upper-cased verbatim key. -/
theorem resolver_nonempty (filterKey : String) (src : DataSourceInfo)
    (hk : filterKey ≠ "")
    (hf : ∀ fields, src.fields = some fields → ∀ f ∈ fields, f.name ≠ "") :
    mapFilterToField filterKey src ≠ "" ∧
    (src.fields = none → objGet commonMappings (lowerStr filterKey) = none →
      mapFilterToField filterKey src = upperStr filterKey) := by
  have hcommon : ∀ q ∈ commonMappings, q.2 ≠ "" := by decide
  constructor
  · unfold mapFilterToField
    cases hfs : src.fields with
    | some fields =>
      dsimp only
      cases hex : fields.find? (fun f => lowerStr f.name = lowerStr filterKey) with
      | some f =>
        dsimp only
        exact hf fields hfs f (List.mem_of_find?_eq_some hex)
      | none =>
        dsimp only
        cases hpart : fields.find? (fun f =>
            isSubstr (lowerStr filterKey) (lowerStr f.name) ||
            (match f.description with
             | some d => isSubstr (lowerStr filterKey) (lowerStr d)
             | none => false)) with
        | some f =>
          dsimp only
          exact hf fields hfs f (List.mem_of_find?_eq_some hpart)
        | none =>
          dsimp only
          cases hcm : objGet commonMappings (lowerStr filterKey) with
          | some m =>
            dsimp only
            obtain ⟨p, hp, _, hpv⟩ := objGet_mem hcm
            exact hpv ▸ hcommon p hp
          | none =>
            dsimp only
            exact upperStr_ne_empty filterKey hk
    | none =>
      dsimp only
      cases hcm : objGet commonMappings (lowerStr filterKey) with
      | some m =>
        dsimp only
        obtain ⟨p, hp, _, hpv⟩ := objGet_mem hcm
        exact hpv ▸ hcommon p hp
      | none =>
        dsimp only
        exact upperStr_ne_empty filterKey hk
  · intro h1 h2
    unfold mapFilterToField
    rw [h1, h2]

/-- Witness for `resolver_nonempty`: the unknown key `"zzz"` on the seed
EC2 source resolves to its upper-cased literal form, a non-empty name. -/
theorem resolver_nonempty_witness :
    mapFilterToField "zzz"
      { name := "LW_CFG_AWS_EC2_INSTANCES", category := "AWS"
        description := "AWS EC2 instances configuration and state", fields := none }
      ≠ "" ∧
    (({ name := "LW_CFG_AWS_EC2_INSTANCES", category := "AWS"
        description := "AWS EC2 instances configuration and state",
        fields := none } : DataSourceInfo).fields = none →
      objGet commonMappings (lowerStr "zzz") = none →
      mapFilterToField "zzz"
        { name := "LW_CFG_AWS_EC2_INSTANCES", category := "AWS"
          description := "AWS EC2 instances configuration and state", fields := none }
        = upperStr "zzz") :=
  resolver_nonempty "zzz"
    { name := "LW_CFG_AWS_EC2_INSTANCES", category := "AWS"
      description := "AWS EC2 instances configuration and state", fields := none }
    (by decide) (by intro fields hcontra; exact Option.noConfusion hcontra)

/-- `DrillDownRequest` of the explorer (`limit` exists on the interface
but is never read by `matchesFilter` or `discoverDataSources`). -/
structure DrillDownRequest where
  pattern : Option String
  category : Option String
  provider : Option String
  limit : Option Nat
deriving DecidableEq, Repr

/-- `DataSourceExplorer.matchesFilter`: each present request field must
match (name substring, category substring, provider against name or
category), case-insensitively. -/
def matchesFilter (source : DataSourceInfo) (request : DrillDownRequest) : Bool :=
  (match request.pattern with
   | some p => isSubstr (lowerStr p) (lowerStr source.name)
   | none => true) &&
  (match request.category with
   | some c => isSubstr (lowerStr c) (lowerStr source.category)
   | none => true) &&
  (match request.provider with
   | some pr =>
     isSubstr (lowerStr pr) (lowerStr source.name) ||
     isSubstr (lowerStr pr) (lowerStr source.category)
   | none => true)

/-- `DataSourceExplorer.generateDescription`: category-specific
description ladder keyed on the upper-cased source name. -/
def generateDescription (sourceName category : String) : String :=
  let name := upperStr sourceName
  if category = "AWS" then
    if isSubstr "EC2" name then "AWS EC2 instances configuration and state"
    else if isSubstr "S3" name then "AWS S3 buckets configuration and access policies"
    else if isSubstr "IAM" name then "AWS IAM users, roles, and policies"
    else if isSubstr "LAMBDA" name then "AWS Lambda functions configuration"
    else if isSubstr "RDS" name then "AWS RDS database instances"
    else if isSubstr "CLOUDTRAIL" name then "AWS CloudTrail API activity logs"
    else if isSubstr "VPC" name then "AWS VPC networking configuration"
    else if isSubstr "SECURITY" name then "AWS security groups and NACLs"
    else category ++ " data source: " ++ sourceName
  else if category = "Azure" then
    if isSubstr "COMPUTE" name then "Azure compute resources and virtual machines"
    else if isSubstr "STORAGE" name then "Azure storage accounts and blob containers"
    else if isSubstr "NETWORK" name then "Azure virtual networks and security groups"
    else if isSubstr "DATABASE" name then "Azure database services"
    else category ++ " data source: " ++ sourceName
  else if category = "Container" then
    if isSubstr "VULN" name then "Container vulnerability scan results"
    else if isSubstr "IMAGE" name then "Container image metadata and layers"
    else category ++ " data source: " ++ sourceName
  else category ++ " data source: " ++ sourceName

/-- `DataSourceExplorer.categorizeDataSource`: the deterministic
categorisation ladder (provider keywords → container/kubernetes →
compliance → network → activity/audit → default "General"). -/
def categorizeDataSource (sourceName : String) : DataSourceInfo :=
  let name := upperStr sourceName
  if isSubstr "AWS" name || isSubstr "LW_CFG_AWS" name then
    { name := sourceName, category := "AWS"
      description := generateDescription sourceName "AWS", fields := none }
  else if isSubstr "AZURE" name || isSubstr "LW_CFG_AZURE" name then
    { name := sourceName, category := "Azure"
      description := generateDescription sourceName "Azure", fields := none }
  else if isSubstr "GCP" name || isSubstr "GOOGLE" name || isSubstr "LW_CFG_GCP" name then
    { name := sourceName, category := "GCP"
      description := generateDescription sourceName "GCP", fields := none }
  else if isSubstr "CONTAINER" name || isSubstr "VULN" name || isSubstr "IMAGE" name then
    { name := sourceName, category := "Containers"
      description := generateDescription sourceName "Container", fields := none }
  else if isSubstr "K8S" name || isSubstr "KUBERNETES" name then
    { name := sourceName, category := "Kubernetes"
      description := generateDescription sourceName "Kubernetes", fields := none }
  else if isSubstr "COMPLIANCE" name || isSubstr "CIS" name then
    { name := sourceName, category := "Compliance"
      description := generateDescription sourceName "Compliance", fields := none }
  else if isSubstr "NETWORK" name || isSubstr "CONNECTION" name then
    { name := sourceName, category := "Network"
      description := generateDescription sourceName "Network", fields := none }
  else if isSubstr "ACTIVITY" name || isSubstr "AUDIT" name || isSubstr "CLOUDTRAIL" name then
    { name := sourceName, category := "Activity"
      description := generateDescription sourceName "Activity", fields := none }
  else
    { name := sourceName, category := "General"
      description := "Lacework data source: " ++ sourceName, fields := none }

/-- `DataSourceExplorer.discoverDataSources` on the non-cached path.  The
listing collaborator's outcome is passed explicitly; on failure (the
`catch` branch) the static seed is filtered locally; on success the raw
names are categorised and filtered, then seed entries not already present
are appended (cache writes are bookkeeping and are not part of the
returned value). -/
def discoverDataSources (request : DrillDownRequest)
    (listing : Except Unit (List String)) : List DataSourceInfo :=
  match listing with
  | Except.error _ => getKnownDataSources.filter (fun s => matchesFilter s request)
  | Except.ok baseSources =>
    let enhanced := (baseSources.map categorizeDataSource).filter
      (fun s => matchesFilter s request)
    getKnownDataSources.foldl (fun acc known =>
      if matchesFilter known request && !(acc.any (fun s => s.name = known.name)) then
        acc ++ [known]
      else acc) enhanced

/-! ### Field discovery (`discoverFields`) -/

/-- A JSON value of a sampled row.  `floatV` carries the JS decimal
rendering of the (non-integral) number, which is all the embedded code
ever reads from it. -/
inductive JVal where
  | nullV
  | boolV (b : Bool)
  | intV (n : Int)
  | floatV (rendering : String)
  | strV (s : String)
  | objV
deriving DecidableEq, Repr

/-- A sampled row: the insertion-ordered fields of a JS object. -/
abbrev Row := List (String × JVal)

def isNullish : JVal → Bool
  | JVal.nullV => true
  | _ => false

def isDigitCh (c : Char) : Bool := '0' ≤ c ∧ c ≤ '9'

/-- `/^\d{4}-\d{2}-\d{2}T\d{2}:\d{2}:\d{2}/` (a prefix match). -/
def timestampPattern (cs : List Char) : Bool :=
  match cs with
  | a :: b :: c :: d :: '-' :: e :: f :: '-' :: g :: h :: 'T' ::
      i :: j :: ':' :: k :: l :: ':' :: m :: n :: _ =>
    isDigitCh a && isDigitCh b && isDigitCh c && isDigitCh d && isDigitCh e &&
    isDigitCh f && isDigitCh g && isDigitCh h && isDigitCh i && isDigitCh j &&
    isDigitCh k && isDigitCh l && isDigitCh m && isDigitCh n
  | _ => false

/-- `/^\d+\.\d+\.\d+\.\d+$/`: exactly four non-empty digit groups. -/
def ipPattern (cs : List Char) : Bool :=
  match splitOnChar '.' cs with
  | [a, b, c, d] =>
    (!a.isEmpty && a.all isDigitCh) && (!b.isEmpty && b.all isDigitCh) &&
    (!c.isEmpty && c.all isDigitCh) && (!d.isEmpty && d.all isDigitCh)
  | _ => false

/-- `/^arn:aws:/` (a prefix match). -/
def arnPattern (cs : List Char) : Bool := "arn:aws:".data.isPrefixOf cs

/-- `DataSourceExplorer.inferFieldType`. -/
def inferFieldType : JVal → String
  | JVal.nullV => "null"
  | JVal.boolV _ => "boolean"
  | JVal.intV _ => "integer"
  | JVal.floatV _ => "float"
  | JVal.strV s =>
    if timestampPattern s.data then "timestamp"
    else if ipPattern s.data then "ip_address"
    else if arnPattern s.data then "aws_arn"
    else "string"
  | JVal.objV => "object"

/-- JS `String(val)` for the values that can reach `extractSampleValues`
(nulls are filtered out before stringification). -/
def jvalToString : JVal → String
  | JVal.nullV => "null"
  | JVal.boolV b => if b then "true" else "false"
  | JVal.intV n => toString n
  | JVal.floatV r => r
  | JVal.strV s => s
  | JVal.objV => "[object Object]"

/-- `[...new Set(l)]`: deduplicate keeping the first occurrence. -/
def dedupAux : List String → List String → List String
  | [], _ => []
  | x :: xs, seen =>
    if seen.contains x then dedupAux xs seen else x :: dedupAux xs (x :: seen)

def dedupKeepFirst (l : List String) : List String := dedupAux l []

/-- `DataSourceExplorer.extractSampleValues`: the field's non-null values
of the given rows, stringified and truncated to 50 characters, first
three, deduplicated. -/
def extractSampleValues (fieldName : String) (data : List Row) : List String :=
  let vals := (data.map (fun row => objGet row fieldName)).foldr
    (fun o acc =>
      match o with
      | some v => if isNullish v then acc else v :: acc
      | none => acc) []
  dedupKeepFirst ((vals.map (fun v => (⟨(jvalToString v).data.take 50⟩ : String))).take 3)

/-- `DataSourceExplorer.generateFieldDescription`: the common field-name
pattern ladder. -/
def generateFieldDescription (fieldName sourceName : String) : String :=
  let field := upperStr fieldName
  if isSubstr "ID" field then "Unique identifier"
  else if isSubstr "TIME" field then "Timestamp field"
  else if isSubstr "REGION" field then "Cloud region location"
  else if isSubstr "ACCOUNT" field then "Cloud account identifier"
  else if isSubstr "USER" field then "User or principal name"
  else if isSubstr "RESOURCE" field then "Resource identifier or configuration"
  else if isSubstr "ERROR" field then "Error code or message"
  else if isSubstr "STATUS" field then "Status or state field"
  else if isSubstr "SEVERITY" field then "Severity level"
  else if isSubstr "SCORE" field then "Risk or priority score"
  else if isSubstr "CONFIG" field then "Configuration data"
  else if isSubstr "EVENT" field then "Event data or name"
  else if isSubstr "SOURCE" field then "Event or data source"
  else if isSubstr "IP" field then "IP address"
  else if isSubstr "PORT" field then "Network port"
  else if isSubstr "PROTOCOL" field then "Network protocol"
  else "Field from " ++ sourceName

/-- `DataSourceExplorer.getKnownFields`: the static per-source
known-fields table, in its declared order. -/
def getKnownFields (sourceName : String) : List FieldInfo :=
  if sourceName = "LW_CFG_AWS_EC2_INSTANCES" then
    [ { name := "RESOURCE_ID", type := "string", description := some "EC2 instance ID"
        sampleValues := [], nullable := false },
      { name := "RESOURCE_REGION", type := "string", description := some "AWS region"
        sampleValues := [], nullable := false },
      { name := "ACCOUNT_ID", type := "string", description := some "AWS account ID"
        sampleValues := [], nullable := false },
      { name := "RESOURCE_CONFIG", type := "object", description := some "Instance configuration"
        sampleValues := [], nullable := false },
      { name := "URN", type := "string", description := some "Unique resource identifier"
        sampleValues := [], nullable := false } ]
  else if sourceName = "LW_CFG_AZURE_COMPUTE_VIRTUALMACHINES" then
    [ { name := "RESOURCE_ID", type := "string", description := some "Azure VM resource ID"
        sampleValues := [], nullable := false },
      { name := "RESOURCE_REGION", type := "string", description := some "Azure region"
        sampleValues := [], nullable := false },
      { name := "SUBSCRIPTION_ID", type := "string", description := some "Azure subscription ID"
        sampleValues := [], nullable := false },
      { name := "RESOURCE_CONFIG", type := "object", description := some "VM configuration"
        sampleValues := [], nullable := false },
      { name := "RESOURCE_GROUP", type := "string", description := some "Azure resource group"
        sampleValues := [], nullable := false } ]
  else if sourceName = "CloudTrailRawEvents" then
    [ { name := "EVENT_TIME", type := "timestamp", description := some "Event timestamp"
        sampleValues := [], nullable := false },
      { name := "EVENT_NAME", type := "string", description := some "API call name"
        sampleValues := [], nullable := false },
      { name := "EVENT_SOURCE", type := "string", description := some "AWS service"
        sampleValues := [], nullable := false },
      { name := "ERROR_CODE", type := "string", description := some "Error code if failed"
        sampleValues := [], nullable := false },
      { name := "USER_NAME", type := "string", description := some "User or role name"
        sampleValues := [], nullable := false } ]
  else []

/-- Insert a field into a name-sorted list (stable insertion). -/
def insertFieldByName (f : FieldInfo) : List FieldInfo → List FieldInfo
  | [] => [f]
  | g :: t =>
    if f.name.data ≤ g.name.data then f :: g :: t else g :: insertFieldByName f t

/-- `fields.sort((a, b) => a.name.localeCompare(b.name))` as a stable
insertion sort by name.  For the ASCII upper-case-and-underscore names of
this code base `localeCompare` agrees with code-point (list) order. -/
def sortFieldsByName : List FieldInfo → List FieldInfo
  | [] => []
  | f :: t => insertFieldByName f (sortFieldsByName t)

/-- `DataSourceExplorer.discoverFields` with the execution collaborator's
outcome passed explicitly.  Failure (`catch`) returns the known-fields
table as is; an empty sample returns it sorted; a non-empty sample builds
one descriptor per field of the first row and sorts by name. -/
def discoverFields (sourceName : String) (execResult : Except Unit (List Row)) :
    List FieldInfo :=
  match execResult with
  | Except.error _ => getKnownFields sourceName
  | Except.ok data =>
    match data with
    | [] => sortFieldsByName (getKnownFields sourceName)
    | sample :: _ =>
      sortFieldsByName (sample.map (fun kv =>
        { name := kv.1
          type := inferFieldType kv.2
          description := some (generateFieldDescription kv.1 sourceName)
          sampleValues := extractSampleValues kv.1 (data.take 5)
          nullable := isNullish kv.2 }))

/-! ## Sorting lemmas and catalog claims -/

theorem insertFieldByName_perm (f : FieldInfo) (l : List FieldInfo) :
    (insertFieldByName f l).Perm (f :: l) := by
  induction l with
  | nil => exact List.Perm.refl _
  | cons g t ih =>
    unfold insertFieldByName
    by_cases h : f.name.data ≤ g.name.data
    · rw [if_pos h]
    · rw [if_neg h]
      exact (ih.cons g).trans (List.Perm.swap f g t)

theorem sortFieldsByName_perm (l : List FieldInfo) : (sortFieldsByName l).Perm l := by
  induction l with
  | nil => exact List.Perm.refl _
  | cons f t ih =>
    exact (insertFieldByName_perm f (sortFieldsByName t)).trans (ih.cons f)

theorem insertFieldByName_pairwise (f : FieldInfo) (l : List FieldInfo)
    (h : l.Pairwise (fun a b => a.name.data ≤ b.name.data)) :
    (insertFieldByName f l).Pairwise (fun a b => a.name.data ≤ b.name.data) := by
  induction l with
  | nil => simp [insertFieldByName]
  | cons g t ih =>
    rw [List.pairwise_cons] at h
    unfold insertFieldByName
    by_cases hle : f.name.data ≤ g.name.data
    · rw [if_pos hle]
      refine List.Pairwise.cons ?_ (List.Pairwise.cons h.1 h.2)
      intro b hb
      rcases List.mem_cons.mp hb with rfl | hb'
      · exact hle
      · exact le_trans hle (h.1 b hb')
    · rw [if_neg hle]
      refine List.Pairwise.cons ?_ (ih h.2)
      intro b hb
      have hb' : b ∈ f :: t := (insertFieldByName_perm f t).mem_iff.mp hb
      rcases List.mem_cons.mp hb' with rfl | hbt
      · exact le_of_not_le hle
      · exact h.1 b hbt

theorem sortFieldsByName_pairwise (l : List FieldInfo) :
    (sortFieldsByName l).Pairwise (fun a b => a.name.data ≤ b.name.data) := by
  induction l with
  | nil => exact List.Pairwise.nil
  | cons f t ih => exact insertFieldByName_pairwise f _ ih

/-- The static known-fields tables all have distinct field names. -/
theorem getKnownFields_names_nodup (s : String) :
    ((getKnownFields s).map (fun f => f.name)).Nodup := by
  unfold getKnownFields
  split_ifs <;> decide

/-- C6: the catalog's discovery operations degrade instead of failing:
when the listing collaborator fails, `discoverDataSources` returns the
static known-sources seed filtered locally by the request (membership is
exactly seed-membership plus the request filter); when the sample query
fails, `discoverFields` returns the static per-source known-fields table,
and when it returns zero rows, the same table sorted by name.  All four
operations are total functions — no error propagates. -/
theorem discovery_fallbacks (request : DrillDownRequest) (src : String) :
    (discoverDataSources request (Except.error ()) =
      getKnownDataSources.filter (fun s => matchesFilter s request)) ∧
    (∀ s, s ∈ discoverDataSources request (Except.error ()) ↔
      (s ∈ getKnownDataSources ∧ matchesFilter s request = true)) ∧
    (discoverFields src (Except.error ()) = getKnownFields src) ∧
    (discoverFields src (Except.ok []) = sortFieldsByName (getKnownFields src)) := by
  refine ⟨rfl, ?_, rfl, rfl⟩
  intro s
  simp [discoverDataSources, List.mem_filter]

/-- C9 counterexample: on the execution-failure fallback path,
`discoverFields` returns the static table in its declared order, which
for `LW_CFG_AWS_EC2_INSTANCES` is *not* sorted by field name
(`RESOURCE_ID` precedes `ACCOUNT_ID`). -/
theorem discoverFields_error_unsorted :
    ((discoverFields "LW_CFG_AWS_EC2_INSTANCES" (Except.error ())).map (fun f => f.name)
      = ["RESOURCE_ID", "RESOURCE_REGION", "ACCOUNT_ID", "RESOURCE_CONFIG", "URN"]) ∧
    ¬ (((discoverFields "LW_CFG_AWS_EC2_INSTANCES" (Except.error ())).map
        (fun f => f.name.data)).Pairwise (fun a b => a ≤ b)) := by
  constructor
  · decide
  · decide

/-- C9 (amended): the field lists the catalog returns have unique names on
every path of `discoverFields`, and are sorted ascending by name on the
sample-query path (given the sampled row's keys are unique, as JS object
keys are) and on the empty-sample fallback; the execution-failure fallback
returns the static table in declared order, which need not be sorted. -/
theorem discoverFields_presentation (src : String) (sample : Row) (rest : List Row)
    (hkeys : (sample.map (fun kv => kv.1)).Nodup) :
    (((discoverFields src (Except.ok (sample :: rest))).map (fun f => f.name.data)).Pairwise
        (fun a b => a ≤ b) ∧
     ((discoverFields src (Except.ok (sample :: rest))).map (fun f => f.name)).Nodup) ∧
    (((discoverFields src (Except.ok [])).map (fun f => f.name.data)).Pairwise
        (fun a b => a ≤ b) ∧
     ((discoverFields src (Except.ok [])).map (fun f => f.name)).Nodup) ∧
    ((discoverFields src (Except.error ())).map (fun f => f.name)).Nodup := by
  refine ⟨⟨?_, ?_⟩, ⟨?_, ?_⟩, ?_⟩
  · exact List.pairwise_map.mpr (sortFieldsByName_pairwise _)
  · show ((sortFieldsByName _).map (fun f => f.name)).Nodup
    have hperm := (sortFieldsByName_perm (sample.map (fun kv =>
      ({ name := kv.1
         type := inferFieldType kv.2
         description := some (generateFieldDescription kv.1 src)
         sampleValues := extractSampleValues kv.1 ((sample :: rest).take 5)
         nullable := isNullish kv.2 } : FieldInfo)))).map (fun f => f.name)
    rw [hperm.nodup_iff, List.map_map]
    exact hkeys
  · exact List.pairwise_map.mpr (sortFieldsByName_pairwise _)
  · show ((sortFieldsByName _).map (fun f => f.name)).Nodup
    exact ((sortFieldsByName_perm (getKnownFields src)).map (fun f => f.name)).nodup_iff.mpr
      (getKnownFields_names_nodup src)
  · exact getKnownFields_names_nodup src

/-- Witness for `discoverFields_presentation`: a concrete two-field sample
row (keys out of order, duplicates absent). -/
theorem discoverFields_presentation_witness :
    (((discoverFields "X" (Except.ok [[("B", JVal.strV "x"), ("A", JVal.nullV)]])).map
        (fun f => f.name.data)).Pairwise (fun a b => a ≤ b) ∧
     ((discoverFields "X" (Except.ok [[("B", JVal.strV "x"), ("A", JVal.nullV)]])).map
        (fun f => f.name)).Nodup) ∧
    (((discoverFields "X" (Except.ok [])).map (fun f => f.name.data)).Pairwise
        (fun a b => a ≤ b) ∧
     ((discoverFields "X" (Except.ok [])).map (fun f => f.name)).Nodup) ∧
    ((discoverFields "X" (Except.error ())).map (fun f => f.name)).Nodup :=
  discoverFields_presentation "X" [("B", JVal.strV "x"), ("A", JVal.nullV)] [] (by decide)

/-! ## `inferNaturalLanguage` and on-demand tool generation
(`dynamic-registry.ts`)

The naming-convention regexes of `inferNaturalLanguage` use only literal
runs, `[-_]?` optional character classes, lazy/greedy `.*` captures,
alternations and one optional trailing literal, so they are embedded by a
small backtracking matcher whose alternative orders mirror the JS engine
(lazy: shortest first; greedy: longest first; `?` and alternations:
leftmost first; unanchored search: smallest start index first; `.` never
matches a newline). -/

/-- One item of a naming-convention regex. -/
inductive RItem where
  | lit : String → RItem
  | optCls : List Char → RItem
  | anyLazy : RItem
  | anyGreedy : RItem
  | altCap : List String → RItem
  | altNC : List String → RItem
  | optLit : Char → RItem
deriving DecidableEq, Repr

/-- Backtracking matcher: match the items against a prefix of `cs`
(trailing input is ignored, as for an unanchored JS regex), returning the
captures in group order on success. -/
def matchItems : List RItem → List Char → Option (List (List Char))
  | [], _ => some []
  | RItem.lit w :: rest, cs =>
    if w.data.isPrefixOf cs then matchItems rest (cs.drop w.length) else none
  | RItem.optCls cls :: rest, cs =>
    match cs with
    | [] => matchItems rest []
    | c :: cs' =>
      if cls.contains c then
        match matchItems rest cs' with
        | some caps => some caps
        | none => matchItems rest (c :: cs')
      else matchItems rest (c :: cs')
  | RItem.optLit ch :: rest, cs =>
    match cs with
    | [] => matchItems rest []
    | c :: cs' =>
      if c = ch then
        match matchItems rest cs' with
        | some caps => some caps
        | none => matchItems rest (c :: cs')
      else matchItems rest (c :: cs')
  | RItem.anyLazy :: rest, cs =>
    (List.range (cs.length + 1)).findSome? (fun k =>
      if (cs.take k).contains '\n' then none
      else (matchItems rest (cs.drop k)).map (fun caps => cs.take k :: caps))
  | RItem.anyGreedy :: rest, cs =>
    ((List.range (cs.length + 1)).reverse).findSome? (fun k =>
      if (cs.take k).contains '\n' then none
      else (matchItems rest (cs.drop k)).map (fun caps => cs.take k :: caps))
  | RItem.altCap alts :: rest, cs =>
    alts.findSome? (fun w =>
      if w.data.isPrefixOf cs then
        (matchItems rest (cs.drop w.length)).map (fun caps => w.data :: caps)
      else none)
  | RItem.altNC alts :: rest, cs =>
    alts.findSome? (fun w =>
      if w.data.isPrefixOf cs then matchItems rest (cs.drop w.length) else none)

/-- Unanchored leftmost search (`toolName.match(regex)`). -/
def searchRe (items : List RItem) (cs : List Char) : Option (List (List Char)) :=
  (List.range (cs.length + 1)).findSome? (fun i => matchItems items (cs.drop i))

/-- The ordered naming-convention pattern table of `inferNaturalLanguage`
with its templates. -/
def nlPatterns : List (List RItem × String) :=
  [ ([RItem.lit "get", RItem.optCls ['-', '_'], RItem.lit "aws", RItem.optCls ['-', '_'],
      RItem.anyLazy, RItem.optCls ['-', '_'], RItem.altNC ["with", "having"],
      RItem.optCls ['-', '_'], RItem.anyGreedy], "show me AWS $1 with $2"),
    ([RItem.lit "list", RItem.optCls ['-', '_'], RItem.lit "aws", RItem.optCls ['-', '_'],
      RItem.anyGreedy], "list all AWS $1"),
    ([RItem.lit "find", RItem.optCls ['-', '_'], RItem.lit "aws", RItem.optCls ['-', '_'],
      RItem.anyGreedy], "find AWS $1"),
    ([RItem.lit "get", RItem.optCls ['-', '_'], RItem.lit "aws", RItem.optCls ['-', '_'],
      RItem.anyGreedy], "show me AWS $1"),
    ([RItem.lit "get", RItem.optCls ['-', '_'], RItem.altCap ["high", "critical"],
      RItem.optCls ['-', '_'], RItem.anyLazy, RItem.optCls ['-', '_'],
      RItem.altCap ["vulnerabilit", "risk", "threat"]], "show me $1 $2 $3"),
    ([RItem.lit "list", RItem.optCls ['-', '_'], RItem.anyLazy, RItem.optCls ['-', '_'],
      RItem.altCap ["fail", "violation"], RItem.optLit 's'], "list all $1 $2"),
    ([RItem.lit "find", RItem.optCls ['-', '_'], RItem.anyLazy, RItem.optCls ['-', '_'],
      RItem.altCap ["compliance", "security"]], "find $1 $2 issues"),
    ([RItem.lit "get", RItem.optCls ['-', '_'], RItem.lit "container",
      RItem.optCls ['-', '_'], RItem.anyGreedy], "show me container $1"),
    ([RItem.lit "list", RItem.optCls ['-', '_'], RItem.lit "k8s", RItem.optCls ['-', '_'],
      RItem.anyGreedy], "list kubernetes $1"),
    ([RItem.lit "get", RItem.optCls ['-', '_'], RItem.anyGreedy, RItem.optCls ['-', '_'],
      RItem.lit "with", RItem.optCls ['-', '_'], RItem.anyGreedy], "show me $1 with $2"),
    ([RItem.lit "list", RItem.optCls ['-', '_'], RItem.anyGreedy], "list all $1"),
    ([RItem.lit "find", RItem.optCls ['-', '_'], RItem.anyGreedy], "find $1") ]

/-- JS `s.replace(pat, repl)` for a literal pattern: replace the first
occurrence only. -/
def replaceFirst (s pat repl : String) : String :=
  match (List.range (s.data.length + 1)).find?
      (fun i => pat.data.isPrefixOf (s.data.drop i)) with
  | some i => ⟨s.data.take i ++ repl.data ++ s.data.drop (i + pat.data.length)⟩
  | none => s

/-- `match[i].replace(/[-_]/g, ' ').trim()`. -/
def cleanCapture (cap : List Char) : String :=
  trimStr ⟨cap.map (fun c => if c = '-' ∨ c = '_' then ' ' else c)⟩

/-- Substitute `$1`, `$2`, … in the template by the cleaned captures, in
order, first occurrence each. -/
def applyTemplate (tmpl : String) (caps : List (List Char)) : String :=
  (caps.zip (List.range caps.length)).foldl
    (fun acc p => replaceFirst acc ⟨['$', Char.ofNat (49 + p.2)]⟩ (cleanCapture p.1)) tmpl

/-- `.replace(/^(get|list|find|show)\s+/, 'show me ')`. -/
def stripVerbPrefix (cs : List Char) : List Char :=
  match (["get", "list", "find", "show"] : List String).findSome? (fun v =>
      if v.data.isPrefixOf cs then
        let rest := cs.drop v.length
        if rest.takeWhile isWs ≠ [] then some ("show me ".data ++ rest.dropWhile isWs)
        else none
      else none) with
  | some r => r
  | none => cs

/-- `inferNaturalLanguage`: first matching naming-convention pattern wins
and instantiates its template; otherwise a non-empty `args.query` is used
verbatim; otherwise the readable transform of the name itself. -/
def inferNaturalLanguage (toolName : String) (argsQuery : Option String) : String :=
  let lastResort :=
    trimStr ⟨stripVerbPrefix
      (toolName.data.map (fun c => if c = '-' ∨ c = '_' then ' ' else c))⟩
  match nlPatterns.findSome? (fun p =>
      (searchRe p.1 toolName.data).map (fun caps => applyTemplate p.2 caps)) with
  | some r => r
  | none =>
    match argsQuery with
    | some q => if q = "" then lastResort else q
    | none => lastResort

/-- `generateToolFromQuery`: infer the intent from the requested name,
translate it, and register the resulting tool under the *requested* name
(an empty inferred intent aborts without registering). -/
def generateToolFromQuery (now : Int) (toolName : String) (argsQuery : Option String)
    (tools : Registry) : Registry :=
  let naturalLanguage := inferNaturalLanguage toolName argsQuery
  if naturalLanguage = "" then tools
  else
    objSet tools toolName
      (createDynamicTool now toolName naturalLanguage
        (generateFromNaturalLanguage now naturalLanguage))

/-- C7 (code-bug evidence): the tool name `"aws-buckets"` matches no
naming convention, so `generateToolFromQuery` registers a tool under
`"aws-buckets"` with inferred intent `"aws buckets"`; but the bound
executor updates usage statistics under the *recomputed* canonical name
`"get-aws-buckets"`, which is not registered — so invoking the capability
via `executeTool` leaves its `usageCount` at 0 and its `lastUsed` unset,
contradicting the documented update-on-every-invocation lifecycle. -/
theorem invoke_misses_generated_tool :
    inferNaturalLanguage "aws-buckets" none = "aws buckets" ∧
    generateToolName "aws buckets"
      (generateFromNaturalLanguage 0 "aws buckets").category = "get-aws-buckets" ∧
    ((objGet (generateToolFromQuery 0 "aws-buckets" none []) "aws-buckets").map
      (fun t => t.usageCount) = some 0) ∧
    ((objGet (executeTool 5 "aws-buckets" (generateToolFromQuery 0 "aws-buckets" none []))
        "aws-buckets").map (fun t => t.usageCount) = some 0) ∧
    ((objGet (executeTool 5 "aws-buckets" (generateToolFromQuery 0 "aws-buckets" none []))
        "aws-buckets").map (fun t => t.lastUsed) = some none) := by
  refine ⟨?_, ?_, ?_, ?_, ?_⟩ <;> decide
